import Mathlib

/-!
Shallow embedding of the bcontact student-directory client
(`src/lib/profile.service.ts`, `src/app/useSearch.ts`,
`src/pages/Profile.tsx`, `src/pages/Onboarding.tsx`) and proofs about it.

The hosted database is modelled as lists of rows; each data-access
function of `profile.service.ts` is split into its query semantics over
the modelled tables (`...Rows`) and the error-handling wrapper from the
source, which takes the backend error (if any) for that call as an
`Option String` parameter.
-/

namespace BContact

/-- A row of the `profiles` table, with the columns the data-access layer
touches (`src/types/database.types.ts`, `profiles` revision used by
`profile.service.ts`). -/
structure Profile where
  id : String
  first_name : Option String
  last_name : Option String
  bio : Option String
  avatar_url : Option String
  current_degree : Option String
  onboarding_completed : Bool
deriving DecidableEq, Repr

/-- A row of the `contacts` table. -/
structure Contact where
  user_id : String
  phone : Option String
  linkedin_url : Option String
  visibility : String
deriving DecidableEq, Repr

/-- A row of the `experiences` table (`exp_type`-named revision used by
`profile.service.ts` and `Profile.tsx`). -/
structure Experience where
  user_id : String
  exp_type : String
  organization : Option String
  role : Option String
  level : Option String
  start_date : Option String
  end_date : Option String
  semester : Option String
  code : Option String
deriving DecidableEq, Repr

/-- The hosted relational state the client reads and writes. -/
structure DB where
  profiles : List Profile
  contacts : List Contact
  experiences : List Experience
deriving DecidableEq, Repr

/-- Whitespace recognised by `String.prototype.trim` (ASCII subset). -/
def isSpaceChar (c : Char) : Bool :=
  c == ' ' || c == '\t' || c == '\n' || c == '\r'

/-- JavaScript `s.trim()`, computed on the character list so that it is
evaluable inside the kernel. -/
def jsTrim (s : String) : String :=
  ⟨(((s.data.dropWhile isSpaceChar).reverse).dropWhile isSpaceChar).reverse⟩

/-- Lower-casing, computed on the character list. -/
def lowerStr (s : String) : String :=
  ⟨s.data.map Char.toLower⟩

/-- JavaScript `s.startsWith(pre)`. -/
def startsWithStr (s pre : String) : Bool :=
  decide (pre.data <+: s.data)

/-- Substring test on character lists. -/
def containsStr (hay needle : String) : Bool :=
  decide (needle.data <:+: hay.data)

/-- Case-insensitive substring test: SQL `field ILIKE '%pat%'`.
A NULL column never matches (SQL three-valued logic collapses to false
in a WHERE clause). -/
def iLike (field : Option String) (pat : String) : Bool :=
  match field with
  | none => false
  | some s => containsStr (lowerStr s) (lowerStr pat)

/-- First-occurrence deduplication with an accumulator of already-seen
keys: the semantics of JavaScript `[...new Set(xs)]`. -/
def dedupFirstAux (seen : List String) : List String → List String
  | [] => []
  | x :: xs =>
    if x ∈ seen then dedupFirstAux seen xs
    else x :: dedupFirstAux (x :: seen) xs

/-- `[...new Set(xs)]`: keep the first occurrence of each element. -/
def dedupFirst (xs : List String) : List String :=
  dedupFirstAux [] xs

/-- Lexicographic order on character lists (string collation of the
modelled backend). -/
def listLe : List Char → List Char → Bool
  | [], _ => true
  | _ :: _, [] => false
  | a :: as, b :: bs => if a == b then listLe as bs else decide (a < b)

/-- Insert a profile into a list sorted by `le` (helper for the modelled
`order('first_name', { ascending: true })`). -/
def insertSorted (le : Profile → Profile → Bool) (p : Profile) :
    List Profile → List Profile
  | [] => [p]
  | q :: qs => if le p q then p :: q :: qs else q :: insertSorted le p qs

/-- Insertion sort, modelling the backend `order(...)` clause. -/
def sortProfiles (le : Profile → Profile → Bool) : List Profile → List Profile
  | [] => []
  | p :: ps => insertSorted le p (sortProfiles le ps)

/-- Ascending order on `first_name`, NULLs last (PostgreSQL default for
ascending sorts). -/
def firstNameLe (p q : Profile) : Bool :=
  match p.first_name, q.first_name with
  | none, none => true
  | none, some _ => false
  | some _, none => true
  | some a, some b => listLe a.data b.data

/-! ### Query semantics of the read paths of `profile.service.ts` -/

/-- `fetchProfile`: `from('profiles').select('*').eq('id', userId).single()`.
`single()` succeeds exactly when one row matches. -/
def fetchProfileRow (db : DB) (userId : String) : Option Profile :=
  match db.profiles.filter (fun p => p.id == userId) with
  | [p] => some p
  | _ => none

/-- `fetchContacts`: single row of `contacts` with `user_id = userId`. -/
def fetchContactsRow (db : DB) (userId : String) : Option Contact :=
  match db.contacts.filter (fun c => c.user_id == userId) with
  | [c] => some c
  | _ => none

/-- `fetchExperiences`: all `experiences` rows with `user_id = userId`. -/
def fetchExperiencesRows (db : DB) (userId : String) : List Experience :=
  db.experiences.filter (fun e => e.user_id == userId)

/-- `searchProfiles` query: onboarded profiles other than the caller whose
first name, last name or current degree matches `%query%`, with
`range(offset, offset + limit - 1)` paging. -/
def searchProfilesRows (db : DB) (query uid : String) (limit offset : Nat) :
    List Profile :=
  (((db.profiles.filter (fun p =>
      p.onboarding_completed && p.id != uid &&
      (iLike p.first_name query || iLike p.last_name query ||
       iLike p.current_degree query))).drop offset).take limit)

/-- `browseProfiles` query: onboarded profiles other than the caller,
ordered by first name ascending, with range paging. -/
def browseProfilesRows (db : DB) (uid : String) (limit offset : Nat) :
    List Profile :=
  ((sortProfiles firstNameLe
      (db.profiles.filter (fun p =>
        p.onboarding_completed && p.id != uid))).drop offset).take limit

/-- `fetchProfilesByIds` query: onboarded profiles whose id is in `ids`;
the source returns `[]` up front for an empty id list. -/
def fetchProfilesByIdsRows (db : DB) (ids : List String) : List Profile :=
  if ids.isEmpty then []
  else db.profiles.filter (fun p => p.onboarding_completed && ids.contains p.id)

/-- `searchExperienceUsers` query: rows of `experiences` with the given
type, not owned by the caller, optionally pattern-filtered when the query
is non-blank, `limit`-capped server side; the owner ids are then
deduplicated client side via `[...new Set(ids)]`. -/
def searchExperienceUsersRows (db : DB) (query expType uid : String)
    (limit : Nat) : List String :=
  let base := db.experiences.filter (fun e =>
    e.exp_type == expType && e.user_id != uid)
  let rows := if jsTrim query != "" then
      base.filter (fun e =>
        iLike e.organization query || iLike e.role query || iLike e.code query)
    else base
  dedupFirst ((rows.take limit).map (fun e => e.user_id))

/-- `fetchExperiencesForUsers` query: all experiences of the given users;
`[]` up front for an empty id list. -/
def fetchExperiencesForUsersRows (db : DB) (userIds : List String) :
    List Experience :=
  if userIds.isEmpty then []
  else db.experiences.filter (fun e => userIds.contains e.user_id)

/-! ### Error-handling wrappers

Each read of `profile.service.ts` checks the backend `error` field and
degrades (`return null` / `return []`) when it is set; `err` is the
backend error reported for that call, if any. -/

/-- `fetchProfile`: `if (error) return null`. -/
def fetchProfile (db : DB) (userId : String) (err : Option String) :
    Option Profile :=
  match err with
  | some _ => none
  | none => fetchProfileRow db userId

/-- `fetchContacts`: `if (error) return null`. -/
def fetchContacts (db : DB) (userId : String) (err : Option String) :
    Option Contact :=
  match err with
  | some _ => none
  | none => fetchContactsRow db userId

/-- `fetchExperiences`: `if (error) return []`. -/
def fetchExperiences (db : DB) (userId : String) (err : Option String) :
    List Experience :=
  match err with
  | some _ => []
  | none => fetchExperiencesRows db userId

/-- `searchProfiles`: `if (error) return []`. -/
def searchProfiles (db : DB) (query uid : String) (limit offset : Nat)
    (err : Option String) : List Profile :=
  match err with
  | some _ => []
  | none => searchProfilesRows db query uid limit offset

/-- `browseProfiles`: `if (error) return []`. -/
def browseProfiles (db : DB) (uid : String) (limit offset : Nat)
    (err : Option String) : List Profile :=
  match err with
  | some _ => []
  | none => browseProfilesRows db uid limit offset

/-- `fetchProfilesByIds`: empty id list short-circuits before the backend
call; otherwise `if (error) return []`. -/
def fetchProfilesByIds (db : DB) (ids : List String) (err : Option String) :
    List Profile :=
  if ids.isEmpty then []
  else
    match err with
    | some _ => []
    | none => fetchProfilesByIdsRows db ids

/-- `searchExperienceUsers`: `if (error) return []`. -/
def searchExperienceUsers (db : DB) (query expType uid : String)
    (limit : Nat) (err : Option String) : List String :=
  match err with
  | some _ => []
  | none => searchExperienceUsersRows db query expType uid limit

/-- `fetchExperiencesForUsers`: empty id list short-circuits; otherwise
`if (error) return []`. -/
def fetchExperiencesForUsers (db : DB) (userIds : List String)
    (err : Option String) : List Experience :=
  if userIds.isEmpty then []
  else
    match err with
    | some _ => []
    | none => fetchExperiencesForUsersRows db userIds

/-! ### The search hook (`src/app/useSearch.ts`): pure data flow

`executeSearchPure` mirrors one uninterrupted run of `executeSearch`
(lines 45-120): the branch on the active filter, client-side paging of
experience-owner ids, the badge fetch, grouping, append deduplication and
the `hasMore` updates.  `PAGE_SIZE = 50`; the experience-id collection is
capped at the service default of 200. -/

/-- The filter of the search hook: `'all' | 'degree' | 'course' | 'exchange'`. -/
inductive FilterType where
  | all
  | degree
  | course
  | exchange
deriving DecidableEq, Repr

/-- The string the hook passes to `searchExperienceUsers` as `expType`. -/
def FilterType.name : FilterType → String
  | .all => "all"
  | .degree => "degree"
  | .course => "course"
  | .exchange => "exchange"

/-- One entry of the result list: a profile plus its badge experiences. -/
structure SearchResult where
  profile : Profile
  experiences : List Experience
deriving DecidableEq, Repr

/-- The `setResults` updater of the append branch (lines 96-102): new
entries whose profile id already occurs in the held list are dropped. -/
def appendResults (prev new : List SearchResult) : List SearchResult :=
  prev ++ new.filter (fun r =>
    !((prev.map (fun x => x.profile.id)).contains r.profile.id))

/-- The per-call backend errors observed by one dispatch. -/
structure CallErrs where
  profilesErr : Option String
  expUsersErr : Option String
  byIdsErr : Option String
  expsErr : Option String
deriving Repr

/-- Group the bulk-fetched experiences by owner: the `expMap` of lines
84-93 (`expMap.get(p.id) ?? []` yields this filter in fetch order). -/
def badgesFor (exps : List Experience) (pid : String) : List Experience :=
  exps.filter (fun e => e.user_id == pid)

/-- One uninterrupted run of `executeSearch q f pageOffset append` over
the modelled backend, returning the results list and `hasMore`. -/
def executeSearchPure (db : DB) (q : String) (f : FilterType) (uid : String)
    (pageOffset : Nat) (append : Bool) (prev : List SearchResult)
    (errs : CallErrs) : List SearchResult × Bool :=
  match f with
  | .all =>
    let profiles :=
      if jsTrim q != "" then searchProfiles db q uid 50 pageOffset errs.profilesErr
      else browseProfiles db uid 50 pageOffset errs.profilesErr
    let exps := fetchExperiencesForUsers db (profiles.map (fun p => p.id)) errs.expsErr
    let newResults := profiles.map (fun p => SearchResult.mk p (badgesFor exps p.id))
    (if append then appendResults prev newResults else newResults,
     decide (50 ≤ profiles.length))
  | f =>
    let userIds := searchExperienceUsers db q f.name uid 200 errs.expUsersErr
    let pageIds := (userIds.drop pageOffset).take 50
    let profiles := fetchProfilesByIds db pageIds errs.byIdsErr
    let exps := fetchExperiencesForUsers db (profiles.map (fun p => p.id)) errs.expsErr
    let newResults := profiles.map (fun p => SearchResult.mk p (badgesFor exps p.id))
    (if append then appendResults prev newResults else newResults,
     decide (pageOffset + 50 < userIds.length))

/-! ### The search hook: generation counter vs. interleaved dispatches

`useSearch` keeps a generation counter (`abortRef`, line 42); a dispatch
captures `generation = ++abortRef.current` synchronously (line 49) and the
code between two `await`s runs atomically on the single-threaded event
loop.  We model the hook state, a dispatch's resume points between awaits,
and the atomic segment executed at each resume point; responses (and the
moment a resume point is scheduled) are chosen by the environment, so the
step functions quantify over every interleaving of dispatches. -/

/-- The hook state a dispatch can write: the counter plus the three pieces
of React state `executeSearch` sets. -/
structure SState where
  counter : Nat
  results : List SearchResult
  hasMore : Bool
  loading : Bool
deriving DecidableEq, Repr

/-- The resume points of `executeSearch`, one per `await`:
after `searchProfiles`/`browseProfiles` (line 58/60), after
`searchExperienceUsers` (line 64), after `fetchProfilesByIds` (line 67,
remembering how many owner ids were collected), and after
`fetchExperiencesForUsers` (line 79, remembering the fetched page). -/
inductive Phase where
  | allAwaitProfiles (append : Bool)
  | filterAwaitUserIds (pageOffset : Nat) (append : Bool)
  | filterAwaitProfiles (idsLen pageOffset : Nat) (append : Bool)
  | awaitExperiences (isAll : Bool) (profiles : List Profile) (append : Bool)
  | finished
deriving DecidableEq, Repr

/-- An environment-chosen response delivered at a resume point;
`failure` is a rejected backend promise (handled by `catch`). -/
inductive Resp where
  | profilesResp (ps : List Profile)
  | userIdsResp (ids : List String)
  | experiencesResp (es : List Experience)
  | failure
deriving DecidableEq, Repr

/-- The `finally` block (lines 113-117): clear `loading` only when this
dispatch is still the latest. -/
def finallyUpd (g : Nat) (s : SState) : SState :=
  if g = s.counter then { s with loading := false } else s

/-- The synchronous prologue of a dispatch (lines 49-50): bump the
generation counter and, for a non-append dispatch, set `loading`; returns
the new task (its captured generation and first resume point) and the
updated state. -/
def dispatch (isAll : Bool) (pageOffset : Nat) (append : Bool) (s : SState) :
    (Nat × Phase) × SState :=
  let g := s.counter + 1
  ((g, if isAll then Phase.allAwaitProfiles append
       else Phase.filterAwaitUserIds pageOffset append),
   { s with counter := g, loading := if append then s.loading else true })

/-- The atomic segment a dispatch with captured generation `g` runs when
the awaited response `r` arrives in hook state `s`: the generation checks
of lines 69, 75, 81, 108 and 114, the `hasMore`/`results` updates, and the
`finally` block on every exit path.  A mismatched or failed response takes
the `catch` path (log, then `finally`). -/
def resume (g : Nat) (ph : Phase) (r : Resp) (s : SState) : Phase × SState :=
  match ph, r with
  | .allAwaitProfiles append, .profilesResp ps =>
    if g = s.counter then (.awaitExperiences true ps append, s)
    else (.finished, finallyUpd g s)
  | .filterAwaitUserIds pageOffset append, .userIdsResp ids =>
    (.filterAwaitProfiles ids.length pageOffset append, s)
  | .filterAwaitProfiles idsLen pageOffset append, .profilesResp ps =>
    let s1 := if g = s.counter then
        { s with hasMore := decide (pageOffset + 50 < idsLen) }
      else s
    if g = s1.counter then (.awaitExperiences false ps append, s1)
    else (.finished, finallyUpd g s1)
  | .awaitExperiences isAll ps append, .experiencesResp es =>
    if g = s.counter then
      let newResults := ps.map (fun p => SearchResult.mk p (badgesFor es p.id))
      let s1 := { s with results :=
        if append then appendResults s.results newResults else newResults }
      let s2 := if isAll ∧ g = s1.counter then
          { s1 with hasMore := decide (50 ≤ ps.length) }
        else s1
      (.finished, finallyUpd g s2)
    else (.finished, finallyUpd g s)
  | .finished, _ => (.finished, s)
  | _, _ => (.finished, finallyUpd g s)

/-! ### Onboarding form state (`src/types/database.types.ts`) -/

/-- Identity step fields of the current `Onboarding.tsx` revision. -/
structure OnboardingIdentity where
  name : String
  surname : String
deriving DecidableEq, Repr

/-- A course entered in the academics form. -/
structure OnboardingCourse where
  courseName : String
  courseCode : String
deriving DecidableEq, Repr

/-- Exchange sub-form: toggle, level, destination, semester (empty string
encodes the unset radio states). -/
structure OnboardingExchange where
  enabled : Bool
  level : String
  destination : String
  semester : String
deriving DecidableEq, Repr

/-- Academics form state, shared by the wizard and the profile page. -/
structure OnboardingAcademics where
  currentDegree : String
  otherDegrees : List String
  courses : List OnboardingCourse
  exchange : OnboardingExchange
deriving DecidableEq, Repr

/-- Photo step state: the selected file, modelled by its name. -/
structure OnboardingPhoto where
  file : Option String
deriving DecidableEq, Repr

/-- Contacts step state. -/
structure OnboardingContacts where
  phone : String
  linkedin : String
  instagram : String
  visibility : String
deriving DecidableEq, Repr

/-- The whole wizard form state. -/
structure OnboardingData where
  identity : OnboardingIdentity
  academics : OnboardingAcademics
  photo : OnboardingPhoto
  contacts : OnboardingContacts
deriving DecidableEq, Repr

/-! ### Wizard navigation (`src/pages/Onboarding.tsx`, lines 21-51) -/

/-- `STEPS` of the current revision (line 21). -/
def STEPS : List String := ["Identity", "Academics", "Photo", "Contacts"]

/-- `canGoNext` (lines 33-41): identity needs non-blank name and surname,
academics needs a selected degree, steps 2 and 3 are optional. -/
def canGoNext (d : OnboardingData) (step : Nat) : Bool :=
  if step == 0 then jsTrim d.identity.name != "" && jsTrim d.identity.surname != ""
  else if step == 1 then d.academics.currentDegree != ""
  else true

/-- `next` (lines 43-47): advance one step when `canGoNext` holds and the
index is below `STEPS.length - 1`. -/
def nextStep (d : OnboardingData) (step : Nat) : Nat :=
  if canGoNext d step && decide (step < STEPS.length - 1) then step + 1 else step

/-- `back` (lines 49-51): step down, floored at 0. -/
def backStep (step : Nat) : Nat :=
  if step > 0 then step - 1 else step

/-! ### Wizard navigation, password-step revision

The repository also carries the five-step revision of `Onboarding.tsx`
(`STEPS = ['Password', 'Identity', 'Academics', 'Photo', 'Contacts']`)
whose `StepPassword` submits on its own and advances to step 1 via
`onComplete`, and whose `back` refuses to return to the completed
password step (`if (step > 1)`). -/

/-- Identity fields of the five-step revision. -/
structure OnboardingIdentity5 where
  firstName : String
  lastName : String
deriving DecidableEq, Repr

/-- The form state the five-step wizard's guards consult. -/
structure OnboardingData5 where
  identity : OnboardingIdentity5
  academics : OnboardingAcademics
deriving DecidableEq, Repr

/-- `STEPS` of the five-step revision (password first). -/
def STEPS5 : List String := ["Password", "Identity", "Academics", "Photo", "Contacts"]

/-- `canGoNext` of the five-step revision: step 0 submits through
`StepPassword`, step 1 needs names, step 2 needs a degree. -/
def canGoNext5 (d : OnboardingData5) (step : Nat) : Bool :=
  if step == 1 then
    jsTrim d.identity.firstName != "" && jsTrim d.identity.lastName != ""
  else if step == 2 then d.academics.currentDegree != ""
  else true

/-- `next` of the five-step revision. -/
def nextStep5 (d : OnboardingData5) (step : Nat) : Nat :=
  if canGoNext5 d step && decide (step < STEPS5.length - 1) then step + 1 else step

/-- `back` of the five-step revision (lines 350-353 of that revision):
never returns to step 0 once the password step has completed. -/
def backStep5 (step : Nat) : Nat :=
  if step > 1 then step - 1 else step

/-- A user action on the wizard's navigation buttons. -/
inductive WizAction where
  | goNext
  | goBack
deriving DecidableEq, Repr

/-- Run a sequence of navigation actions on the five-step wizard. -/
def runWizard5 (d : OnboardingData5) (acts : List WizAction) (step : Nat) : Nat :=
  match acts with
  | [] => step
  | .goNext :: rest => runWizard5 d rest (nextStep5 d step)
  | .goBack :: rest => runWizard5 d rest (backStep5 step)

/-! ### Remote writes: experiences replacement and onboarding submission -/

/-- An experience row as built by the save handlers, before `user_id` is
attached (`Omit<Experience, 'id' | 'user_id' | 'created_at'>`).  The
current `Onboarding.tsx` revision names the discriminator column `type`;
the `Profile.tsx`/service revision names it `exp_type` — the built
contents are identical. -/
structure ExpData where
  exp_type : String
  organization : Option String
  role : Option String
  level : Option String
  start_date : Option String
  end_date : Option String
  semester : Option String
  code : Option String
deriving DecidableEq, Repr

/-- `insertExperiences` attaches the saving user's id to each built row:
`items.map((item) => ({ ...item, user_id: userId }))`. -/
def toRow (uid : String) (d : ExpData) : Experience :=
  { user_id := uid, exp_type := d.exp_type, organization := d.organization,
    role := d.role, level := d.level, start_date := d.start_date,
    end_date := d.end_date, semester := d.semester, code := d.code }

/-- `'UG'` when the degree name starts with `Bachelor` or is the World
Bachelor in Business, `'MSc'` otherwise (line 299 of `Profile.tsx`). -/
def degreeLevel (degree : String) : String :=
  if startsWithStr degree "Bachelor" || degree == "World Bachelor in Business"
  then "UG" else "MSc"

/-- The experience rows derived from the academics form state
(`Profile.tsx` lines 296-321; `Onboarding.tsx` lines 104-150 build the
same rows): one degree row per other degree, one course row per course
with a non-blank name, and an exchange row when the toggle is enabled and
the destination is non-blank. -/
def buildAcademicsRows (a : OnboardingAcademics) : List ExpData :=
  (a.otherDegrees.map (fun degree =>
    { exp_type := "degree", organization := some "Bocconi University",
      role := some degree, level := some (degreeLevel degree),
      start_date := none, end_date := none, semester := none, code := none }))
  ++ ((a.courses.filter (fun c => jsTrim c.courseName != "")).map (fun c =>
    { exp_type := "course", organization := some (jsTrim c.courseName),
      role := none, level := none, start_date := none, end_date := none,
      semester := none,
      code := if jsTrim c.courseCode == "" then none else some (jsTrim c.courseCode) }))
  ++ (if a.exchange.enabled && jsTrim a.exchange.destination != "" then
      [{ exp_type := "exchange",
         organization := some (jsTrim a.exchange.destination), role := none,
         level := if a.exchange.level == "" then none else some a.exchange.level,
         start_date := none, end_date := none,
         semester := if a.exchange.semester == "" then none
                     else some a.exchange.semester,
         code := none }]
     else [])

/-- A remote write issued against the hosted backend. -/
inductive WriteOp where
  | uploadAvatarW (uid : String)
  | updateProfileW (uid : String)
  | updateContactsW (uid : String)
  | insertExperiencesW (uid : String) (rows : List ExpData)
  | deleteExperiencesW (uid : String)
deriving DecidableEq, Repr

/-- Recognise a delete of the experiences table. -/
def WriteOp.isDelete : WriteOp → Bool
  | .deleteExperiencesW _ => true
  | _ => false

/-- Recognise an insert into the experiences table. -/
def WriteOp.isInsert : WriteOp → Bool
  | .insertExperiencesW _ _ => true
  | _ => false

/-- `insertExperiences` (`profile.service.ts` lines 62-72): an empty item
list returns `{ error: null }` before any backend call; otherwise one
insert is issued, appending the rows on success.  Returns the reported
error, the experiences table, and the backend calls issued. -/
def insertExperiences (uid : String) (items : List ExpData)
    (table : List Experience) (err : Option String) :
    Option String × List Experience × List WriteOp :=
  if items.length = 0 then (none, table, [])
  else
    match err with
    | some m => (some m, table, [.insertExperiencesW uid items])
    | none => (none, table ++ items.map (toRow uid), [.insertExperiencesW uid items])

/-- `deleteExperiences` (lines 87-96): delete every row of the user. -/
def deleteExperiences (uid : String) (table : List Experience)
    (err : Option String) : Option String × List Experience × List WriteOp :=
  match err with
  | some m => (some m, table, [.deleteExperiencesW uid])
  | none => (none, table.filter (fun e => e.user_id != uid), [.deleteExperiencesW uid])

/-- Backend outcomes for the three writes of an academics save. -/
structure SaveEnv where
  profileErr : Option String
  deleteErr : Option String
  insertErr : Option String
deriving Repr

/-- `handleSaveAcademics` (`Profile.tsx` lines 284-328): update the
profile's current degree, delete the user's experiences, re-insert the
rows built from the form; stop at the first failing write.  Returns the
toast error (if any), the experiences table, and the issued backend
writes paired with their success flag. -/
def handleSaveAcademics (uid : String) (a : OnboardingAcademics)
    (table : List Experience) (env : SaveEnv) :
    Option String × List Experience × List (WriteOp × Bool) :=
  match env.profileErr with
  | some m => (some m, table, [(.updateProfileW uid, false)])
  | none =>
    match deleteExperiences uid table env.deleteErr with
    | (some m, table1, _) =>
      (some m, table1, [(.updateProfileW uid, true), (.deleteExperiencesW uid, false)])
    | (none, table1, _) =>
      let rows := buildAcademicsRows a
      match insertExperiences uid rows table1 env.insertErr with
      | (some m, table2, ops) =>
        (some m, table2,
         [(.updateProfileW uid, true), (.deleteExperiencesW uid, true)]
           ++ ops.map (fun o => (o, false)))
      | (none, table2, ops) =>
        (none, table2,
         [(.updateProfileW uid, true), (.deleteExperiencesW uid, true)]
           ++ ops.map (fun o => (o, true)))

/-- Backend outcomes for the writes of the onboarding submission. -/
structure OnbEnv where
  uploadRes : Except String String
  profileErr : Option String
  contactsErr : Option String
  insertErr : Option String
deriving Repr

/-- Step 1 of `handleComplete` (`Onboarding.tsx` lines 77-83): the avatar
upload, issued only when a photo file was selected. -/
def uploadStep (uid : String) (file : Option String)
    (res : Except String String) : Option String × List (WriteOp × Bool) :=
  match file with
  | none => (none, [])
  | some _ =>
    match res with
    | .error m => (some m, [(.uploadAvatarW uid, false)])
    | .ok _ => (none, [(.uploadAvatarW uid, true)])

/-- Steps 2-4 of `handleComplete` (`Onboarding.tsx` lines 85-154): profile
update, then contacts update, then the experiences insert (skipped inside
`insertExperiences` when no rows were built); the first failing write
throws and nothing later runs. -/
def completeWrites (uid : String) (d : OnboardingData)
    (pe ce ie : Option String) : Option String × List (WriteOp × Bool) :=
  match pe with
  | some m => (some m, [(.updateProfileW uid, false)])
  | none =>
    match ce with
    | some m => (some m, [(.updateProfileW uid, true), (.updateContactsW uid, false)])
    | none =>
      let rows := buildAcademicsRows d.academics
      if rows.length = 0 then
        (none, [(.updateProfileW uid, true), (.updateContactsW uid, true)])
      else
        match ie with
        | some m =>
          (some m, [(.updateProfileW uid, true), (.updateContactsW uid, true),
                    (.insertExperiencesW uid rows, false)])
        | none =>
          (none, [(.updateProfileW uid, true), (.updateContactsW uid, true),
                  (.insertExperiencesW uid rows, true)])

/-- `handleComplete` (`Onboarding.tsx` lines 71-164): avatar upload when a
photo was selected, then profile update, then contacts update, then the
experiences insert; the first failing write throws, is caught, and its
message becomes the reported error — nothing later runs and nothing is
rolled back.  Returns the error state and the issued writes with their
success flags. -/
def handleComplete (uid : String) (d : OnboardingData) (env : OnbEnv) :
    Option String × List (WriteOp × Bool) :=
  match uploadStep uid d.photo.file env.uploadRes with
  | (some m, tr) => (some m, tr)
  | (none, tr0) =>
    let rest := completeWrites uid d env.profileErr env.contactsErr env.insertErr
    (rest.1, tr0 ++ rest.2)

/-- The full write sequence `handleComplete` issues when nothing fails:
conditional avatar upload, profile update, contacts update, and the
experiences insert when any rows were built. -/
def expectedOps (uid : String) (d : OnboardingData) : List WriteOp :=
  (match d.photo.file with
   | none => []
   | some _ => [WriteOp.uploadAvatarW uid])
  ++ [WriteOp.updateProfileW uid, WriteOp.updateContactsW uid]
  ++ (if (buildAcademicsRows d.academics).length = 0 then []
      else [WriteOp.insertExperiencesW uid (buildAcademicsRows d.academics)])

/-- The backend error the environment holds for a given write. -/
def envMsgOf (env : OnbEnv) : WriteOp → Option String
  | .uploadAvatarW _ =>
    match env.uploadRes with
    | .error m => some m
    | .ok _ => none
  | .updateProfileW _ => env.profileErr
  | .updateContactsW _ => env.contactsErr
  | .insertExperiencesW _ _ => env.insertErr
  | .deleteExperiencesW _ => none

/-! ## Theorems -/

/-- Any sequence of wizard navigation actions started at or after the
identity step keeps the five-step wizard at or after step 1. -/
theorem runWizard5_ge_one (d : OnboardingData5) (acts : List WizAction) :
    ∀ s : Nat, 1 ≤ s → 1 ≤ runWizard5 d acts s := by
  induction acts with
  | nil => intro s h; exact h
  | cons a rest ih =>
    intro s h
    cases a with
    | goNext =>
      apply ih
      unfold nextStep5
      split
      · omega
      · exact h
    | goBack =>
      apply ih
      unfold backStep5
      split
      · omega
      · exact h

/-- A resume of a dispatch whose captured generation no longer matches the
counter leaves the hook state untouched on every path. -/
theorem resume_stale_eq (g : Nat) (ph : Phase) (r : Resp) (s : SState)
    (h : g ≠ s.counter) : (resume g ph r s).2 = s := by
  cases ph <;> cases r <;> simp [resume, finallyUpd, h]

/-- C1: each dispatch of `executeSearch` increments the generation counter
by one; an atomic segment run on behalf of a dispatch whose captured
generation differs from the current counter changes neither `results`,
`hasMore` nor `loading` (its response is discarded); contrapositively, any
segment that changes the hook state belongs to the latest dispatch, over
every interleaving of dispatches and responses. -/
theorem search_stale_response_discarded :
    (∀ (isAll : Bool) (off : Nat) (app : Bool) (s : SState),
        ((dispatch isAll off app s).2).counter = s.counter + 1)
  ∧ (∀ (g : Nat) (ph : Phase) (r : Resp) (s : SState),
        g ≠ s.counter → (resume g ph r s).2 = s)
  ∧ (∀ (g : Nat) (ph : Phase) (r : Resp) (s : SState),
        (resume g ph r s).2 ≠ s → g = s.counter) :=
  ⟨fun _ _ _ _ => rfl,
   fun g ph r s h => resume_stale_eq g ph r s h,
   fun g ph r s hne => by
     by_contra hg
     exact hne (resume_stale_eq g ph r s hg)⟩

/-- Witness for C1: a concrete stale resume (generation 3, counter 5) is
discarded. -/
theorem search_stale_response_discarded_witness :
    (3 : Nat) ≠ (SState.mk 5 [] false true).counter
  ∧ (resume 3 (Phase.allAwaitProfiles true) (Resp.profilesResp [])
       (SState.mk 5 [] false true)).2 = SState.mk 5 [] false true :=
  ⟨by decide,
   search_stale_response_discarded.2.1 3 (Phase.allAwaitProfiles true)
     (Resp.profilesResp []) (SState.mk 5 [] false true) (by decide)⟩

/-- C7 counterexample: with every field of the form filled in, the
Continue handler at the contacts step (index 3, the final step) does not
advance the step index, refuting "from the photo and contacts steps
unconditionally". -/
theorem wizard_contacts_no_advance :
    nextStep
      ⟨⟨"Mario", "Rossi"⟩, ⟨"Finance", [], [], ⟨false, "", "", ""⟩⟩,
       ⟨none⟩, ⟨"", "", "", "private"⟩⟩ 3 = 3
  ∧ nextStep
      ⟨⟨"Mario", "Rossi"⟩, ⟨"Finance", [], [], ⟨false, "", "", ""⟩⟩,
       ⟨none⟩, ⟨"", "", "", "private"⟩⟩ 3 ≠ 4 := by
  constructor
  · rfl
  · decide

/-- C7 (amended): the Continue handler never advances while the active
step's required fields are empty — from the identity step (0) exactly when
name and surname are non-blank after trimming, from the academics step (1)
exactly when a degree is selected, from the photo step (2) unconditionally;
from the contacts step (3), the final step, it never advances. -/
theorem wizard_step_gating (d : OnboardingData) :
    (nextStep d 0 = 1 ↔
      (jsTrim d.identity.name ≠ "" ∧ jsTrim d.identity.surname ≠ ""))
  ∧ (nextStep d 0 = 0 ∨ nextStep d 0 = 1)
  ∧ (nextStep d 1 = 2 ↔ d.academics.currentDegree ≠ "")
  ∧ (nextStep d 1 = 1 ∨ nextStep d 1 = 2)
  ∧ nextStep d 2 = 3
  ∧ nextStep d 3 = 3 := by
  unfold nextStep canGoNext STEPS
  simp only [List.length_cons, List.length_nil]
  constructor
  · by_cases h1 : jsTrim d.identity.name = "" <;>
      by_cases h2 : jsTrim d.identity.surname = "" <;>
      simp [h1, h2]
  refine ⟨?_, ?_, ?_, ?_, ?_⟩
  · by_cases h1 : jsTrim d.identity.name = "" <;>
      by_cases h2 : jsTrim d.identity.surname = "" <;>
      simp [h1, h2]
  · by_cases h : d.academics.currentDegree = "" <;> simp [h]
  · by_cases h : d.academics.currentDegree = "" <;> simp [h]
  · simp
  · simp

/-- C8: in the five-step revision, once the password step has completed
(the wizard stands at step 1 or later), no sequence of Back or Continue
actions ever returns the wizard to the password step: the step index stays
at 1 or above, while `STEPS5` places `"Password"` only at index 0; the
current four-step revision contains no password step at all. -/
theorem password_step_unreachable (d : OnboardingData5) (s : Nat)
    (acts : List WizAction) (h : 1 ≤ s) :
    1 ≤ runWizard5 d acts s
  ∧ STEPS5.head? = some "Password"
  ∧ "Password" ∉ STEPS :=
  ⟨runWizard5_ge_one d acts s h, rfl, by decide⟩

/-- Witness for C8: two Back actions from step 1 never reach step 0. -/
theorem password_step_unreachable_witness :
    (1 : Nat) ≤ 1
  ∧ (1 ≤ runWizard5 ⟨⟨"", ""⟩, ⟨"", [], [], ⟨false, "", "", ""⟩⟩⟩
        [WizAction.goBack, WizAction.goBack] 1
     ∧ STEPS5.head? = some "Password"
     ∧ "Password" ∉ STEPS) :=
  ⟨le_refl 1,
   password_step_unreachable ⟨⟨"", ""⟩, ⟨"", [], [], ⟨false, "", "", ""⟩⟩⟩ 1
     [WizAction.goBack, WizAction.goBack] (le_refl 1)⟩

/-- C9: every read of the data-access layer degrades on a backend error
instead of throwing — `fetchProfile` and `fetchContacts` return `null`,
the list-valued reads return `[]`, for every error value. -/
theorem reads_degrade_on_error (db : DB) (e : String) (q uid t : String)
    (l o lim : Nat) (ids : List String) :
    fetchProfile db uid (some e) = none
  ∧ fetchContacts db uid (some e) = none
  ∧ fetchExperiences db uid (some e) = []
  ∧ searchProfiles db q uid l o (some e) = []
  ∧ fetchProfilesByIds db ids (some e) = []
  ∧ searchExperienceUsers db q t uid lim (some e) = []
  ∧ fetchExperiencesForUsers db ids (some e) = []
  ∧ browseProfiles db uid l o (some e) = [] := by
  refine ⟨rfl, rfl, rfl, rfl, ?_, rfl, ?_, rfl⟩
  · simp only [fetchProfilesByIds]
    split <;> rfl
  · simp only [fetchExperiencesForUsers]
    split <;> rfl

/-- C10: `insertExperiences` with an empty item list reports no error,
issues no backend call and leaves the experiences table unchanged; an
academics save whose form has no other degrees, only blank-named courses
and a disabled exchange builds no rows and succeeds with only the profile
update and the delete issued, and an onboarding submission with such a
form succeeds without any insert call. -/
theorem insert_empty_noop :
    (∀ (uid : String) (table : List Experience) (err : Option String),
        insertExperiences uid [] table err = (none, table, []))
  ∧ (∀ (uid : String) (a : OnboardingAcademics) (table : List Experience),
        a.otherDegrees = [] →
        a.courses.all (fun c => jsTrim c.courseName == "") = true →
        a.exchange.enabled = false →
        buildAcademicsRows a = []
      ∧ (handleSaveAcademics uid a table ⟨none, none, none⟩).1 = none
      ∧ (handleSaveAcademics uid a table ⟨none, none, none⟩).2.2.map Prod.fst
          = [WriteOp.updateProfileW uid, WriteOp.deleteExperiencesW uid])
  ∧ (∀ (uid : String) (d : OnboardingData),
        d.academics.otherDegrees = [] →
        d.academics.courses.all (fun c => jsTrim c.courseName == "") = true →
        d.academics.exchange.enabled = false →
        (handleComplete uid d ⟨Except.ok "url", none, none, none⟩).1 = none
      ∧ ((handleComplete uid d ⟨Except.ok "url", none, none, none⟩).2.map
            Prod.fst).all (fun op => !op.isInsert) = true) := by
  have hrows : ∀ a : OnboardingAcademics, a.otherDegrees = [] →
      a.courses.all (fun c => jsTrim c.courseName == "") = true →
      a.exchange.enabled = false → buildAcademicsRows a = [] := by
    intro a h1 h2 h3
    unfold buildAcademicsRows
    rw [h1, h3]
    have hc : a.courses.filter (fun c => jsTrim c.courseName != "") = [] := by
      rw [List.filter_eq_nil_iff]
      intro c hc
      have := List.all_eq_true.mp h2 c hc
      simp at this ⊢
      exact this
    rw [hc]
    simp
  refine ⟨fun uid table err => rfl, ?_, ?_⟩
  · intro uid a table h1 h2 h3
    have h0 := hrows a h1 h2 h3
    refine ⟨h0, ?_, ?_⟩ <;>
      simp [handleSaveAcademics, deleteExperiences, insertExperiences, h0]
  · intro uid d h1 h2 h3
    have h0 := hrows d.academics h1 h2 h3
    cases hf : d.photo.file <;>
      simp [handleComplete, uploadStep, completeWrites, hf, h0, WriteOp.isInsert]

/-- Rows that survived the delete of a user's rows are not recovered by
filtering for that user. -/
theorem filter_ne_then_eq (uid : String) (l : List Experience) :
    (l.filter (fun e => e.user_id != uid)).filter (fun e => e.user_id == uid)
      = [] := by
  rw [List.filter_eq_nil_iff]
  intro e he
  have h := (List.mem_filter.mp he).2
  simp only [bne_iff_ne, ne_eq] at h
  simp [h]

/-- Filtering an already user-filtered list again changes nothing. -/
theorem filter_ne_idem (uid : String) (l : List Experience) :
    (l.filter (fun e => e.user_id != uid)).filter (fun e => e.user_id != uid)
      = l.filter (fun e => e.user_id != uid) := by
  rw [List.filter_eq_self]
  intro e he
  exact (List.mem_filter.mp he).2

/-- Every inserted row carries the saving user's id. -/
theorem filter_eq_on_inserted (uid : String) (rows : List ExpData) :
    ((rows.map (toRow uid)).filter (fun e => e.user_id == uid))
      = rows.map (toRow uid) := by
  rw [List.filter_eq_self]
  intro e he
  obtain ⟨r, _, rfl⟩ := List.mem_map.mp he
  simp [toRow]

/-- No inserted row belongs to another user. -/
theorem filter_ne_on_inserted (uid : String) (rows : List ExpData) :
    ((rows.map (toRow uid)).filter (fun e => e.user_id != uid)) = [] := by
  rw [List.filter_eq_nil_iff]
  intro e he
  obtain ⟨r, _, rfl⟩ := List.mem_map.mp he
  simp [toRow]

/-- A fully successful academics save evaluates to the delete-then-insert
result together with its write trace. -/
theorem handleSaveAcademics_ok (uid : String) (a : OnboardingAcademics)
    (table : List Experience) :
    handleSaveAcademics uid a table ⟨none, none, none⟩
      = (none,
         (table.filter (fun e => e.user_id != uid))
           ++ (buildAcademicsRows a).map (toRow uid),
         [(WriteOp.updateProfileW uid, true), (WriteOp.deleteExperiencesW uid, true)]
           ++ (if (buildAcademicsRows a).length = 0 then []
               else [(WriteOp.insertExperiencesW uid (buildAcademicsRows a), true)])) := by
  by_cases h : (buildAcademicsRows a).length = 0
  · have h0 : buildAcademicsRows a = [] := List.length_eq_zero.mp h
    simp [handleSaveAcademics, deleteExperiences, insertExperiences, h0]
  · simp [handleSaveAcademics, deleteExperiences, insertExperiences, h]

/-- C2: a successful academics save reports no error; afterwards the
user's experience rows are exactly those derivable from the current
otherDegrees/courses/exchange form state — one degree row per other degree
(organization Bocconi University, role the degree name, level UG or MSc),
one course row per course with a non-blank name, and one exchange row
exactly when the toggle is enabled and the destination is non-blank —
every prior row of the user having been deleted first (the delete write
precedes the insert), while other users' rows are untouched. -/
theorem academics_save_replaces_experiences (uid : String)
    (a : OnboardingAcademics) (table : List Experience) :
    (handleSaveAcademics uid a table ⟨none, none, none⟩).1 = none
  ∧ (handleSaveAcademics uid a table ⟨none, none, none⟩).2.1.filter
      (fun e => e.user_id == uid) = (buildAcademicsRows a).map (toRow uid)
  ∧ (handleSaveAcademics uid a table ⟨none, none, none⟩).2.1.filter
      (fun e => e.user_id != uid) = table.filter (fun e => e.user_id != uid)
  ∧ (buildAcademicsRows a).map (fun r => r.exp_type)
      = (a.otherDegrees.map (fun _ => "degree"))
        ++ ((a.courses.filter (fun c => jsTrim c.courseName != "")).map
              (fun _ => "course"))
        ++ (if a.exchange.enabled && jsTrim a.exchange.destination != ""
            then ["exchange"] else [])
  ∧ ((buildAcademicsRows a).filter (fun r => r.exp_type == "degree")).all
      (fun r => r.organization == some "Bocconi University"
        && (r.level == some "UG" || r.level == some "MSc")) = true
  ∧ (handleSaveAcademics uid a table ⟨none, none, none⟩).2.2.map Prod.fst
      = [WriteOp.updateProfileW uid, WriteOp.deleteExperiencesW uid]
        ++ (if (buildAcademicsRows a).length = 0 then []
            else [WriteOp.insertExperiencesW uid (buildAcademicsRows a)]) := by
  rw [handleSaveAcademics_ok]
  refine ⟨rfl, ?_, ?_, ?_, ?_, ?_⟩
  · rw [List.filter_append, filter_ne_then_eq, filter_eq_on_inserted,
        List.nil_append]
  · rw [List.filter_append, filter_ne_idem, filter_ne_on_inserted,
        List.append_nil]
  · unfold buildAcademicsRows
    rw [List.map_append, List.map_append, List.map_map, List.map_map]
    by_cases h : (a.exchange.enabled && jsTrim a.exchange.destination != "")
        = true
    · rw [if_pos h, if_pos h]
      rfl
    · rw [if_neg h, if_neg h]
      rfl
  · rw [List.all_eq_true]
    intro r hr
    have hr2 := List.mem_filter.mp hr
    unfold buildAcademicsRows at hr2
    rcases List.mem_append.mp hr2.1 with hin | hin
    · rcases List.mem_append.mp hin with hin2 | hin2
      · obtain ⟨deg, _, rfl⟩ := List.mem_map.mp hin2
        unfold degreeLevel
        by_cases hb : startsWithStr deg "Bachelor"
            || deg == "World Bachelor in Business" <;> simp [hb]
      · obtain ⟨c, _, rfl⟩ := List.mem_map.mp hin2
        simp at hr2
    · by_cases hco : (a.exchange.enabled && jsTrim a.exchange.destination != "")
          = true
      · rw [if_pos hco] at hin
        simp only [List.mem_singleton] at hin
        subst hin
        simp at hr2
      · rw [if_neg hco] at hin
        simp at hin
  · by_cases h : (buildAcademicsRows a).length = 0 <;> simp [h]

/-- Witness for C10: a form with no other degrees, one blank-named course
and a disabled exchange builds no rows and saves without an insert. -/
theorem insert_empty_noop_witness :
    buildAcademicsRows ⟨"Finance", [], [⟨"", "30212"⟩], ⟨false, "", "Paris", ""⟩⟩ = []
  ∧ (handleSaveAcademics "u1"
       ⟨"Finance", [], [⟨"", "30212"⟩], ⟨false, "", "Paris", ""⟩⟩ []
       ⟨none, none, none⟩).1 = none
  ∧ (handleSaveAcademics "u1"
       ⟨"Finance", [], [⟨"", "30212"⟩], ⟨false, "", "Paris", ""⟩⟩ []
       ⟨none, none, none⟩).2.2.map Prod.fst
      = [WriteOp.updateProfileW "u1", WriteOp.deleteExperiencesW "u1"] :=
  insert_empty_noop.2.1 "u1"
    ⟨"Finance", [], [⟨"", "30212"⟩], ⟨false, "", "Paris", ""⟩⟩ []
    rfl (by decide) rfl

/-- The planned onboarding write sequence never contains a delete. -/
theorem expectedOps_no_delete (uid : String) (d : OnboardingData) :
    (expectedOps uid d).all (fun o => ! o.isDelete) = true := by
  unfold expectedOps
  cases d.photo.file <;>
    by_cases h : (buildAcademicsRows d.academics).length = 0 <;>
    simp [h, WriteOp.isDelete]

/-- A prefix stays a prefix under a common front segment. -/
theorem prefix_append_front {α : Type} (l p t : List α) (h : p <+: t) :
    (l ++ p) <+: (l ++ t) := by
  obtain ⟨s, hs⟩ := h
  exact ⟨s, by rw [List.append_assoc, hs]⟩

/-- Case analysis of the post-upload writes of `handleComplete`: either
everything succeeds and the full profile/contacts/insert sequence is
issued, or the trace is committed successes followed by the single failing
write, whose backend message is reported. -/
theorem completeWrites_cases (uid : String) (d : OnboardingData)
    (ur : Except String String) (pe ce ie : Option String) :
    ((completeWrites uid d pe ce ie).1 = none
      ∧ (completeWrites uid d pe ce ie).2.map Prod.fst
          = [WriteOp.updateProfileW uid, WriteOp.updateContactsW uid]
            ++ (if (buildAcademicsRows d.academics).length = 0 then []
                else [WriteOp.insertExperiencesW uid (buildAcademicsRows d.academics)])
      ∧ (completeWrites uid d pe ce ie).2.all (fun p => p.2) = true)
  ∨ (∃ m pre op, (completeWrites uid d pe ce ie).1 = some m
      ∧ (completeWrites uid d pe ce ie).2 = pre ++ [(op, false)]
      ∧ pre.all (fun p => p.2) = true
      ∧ envMsgOf ⟨ur, pe, ce, ie⟩ op = some m
      ∧ (pre.map Prod.fst ++ [op]) <+:
          ([WriteOp.updateProfileW uid, WriteOp.updateContactsW uid]
            ++ (if (buildAcademicsRows d.academics).length = 0 then []
                else [WriteOp.insertExperiencesW uid
                        (buildAcademicsRows d.academics)]))) := by
  cases pe with
  | some m =>
    right
    refine ⟨m, [], WriteOp.updateProfileW uid, rfl, rfl, rfl, rfl, ?_⟩
    refine ⟨WriteOp.updateContactsW uid
        :: (if (buildAcademicsRows d.academics).length = 0 then []
            else [WriteOp.insertExperiencesW uid
                    (buildAcademicsRows d.academics)]), ?_⟩
    simp
  | none =>
    cases ce with
    | some m =>
      right
      refine ⟨m, [(WriteOp.updateProfileW uid, true)],
              WriteOp.updateContactsW uid, rfl, rfl, rfl, rfl, ?_⟩
      refine ⟨(if (buildAcademicsRows d.academics).length = 0 then []
               else [WriteOp.insertExperiencesW uid
                       (buildAcademicsRows d.academics)]), ?_⟩
      simp
    | none =>
      by_cases h : (buildAcademicsRows d.academics).length = 0
      · left
        refine ⟨?_, ?_, ?_⟩ <;> simp [completeWrites, h]
      · cases ie with
        | some m =>
          right
          refine ⟨m, [(WriteOp.updateProfileW uid, true),
                      (WriteOp.updateContactsW uid, true)],
                  WriteOp.insertExperiencesW uid (buildAcademicsRows d.academics),
                  ?_, ?_, rfl, rfl, ?_⟩
          · simp [completeWrites, h]
          · simp [completeWrites, h]
          · rw [if_neg h]
            exact ⟨[], by simp⟩
        | none =>
          left
          refine ⟨?_, ?_, ?_⟩ <;> simp [completeWrites, h]

/-- C3 counterexample: a fully successful onboarding submission with a
photo and one extra degree issues upload, profile update, contacts update
and the experiences insert — and no delete at all, refuting the claimed
delete-then-reinsert of experiences. -/
theorem onboarding_complete_no_delete :
    (handleComplete "u1"
      ⟨⟨"Mario", "Rossi"⟩,
       ⟨"Finance", ["Marketing Management"], [], ⟨false, "", "", ""⟩⟩,
       ⟨some "pic.png"⟩, ⟨"", "", "", "private"⟩⟩
      ⟨Except.ok "url", none, none, none⟩).2.map Prod.fst
      = [WriteOp.uploadAvatarW "u1", WriteOp.updateProfileW "u1",
         WriteOp.updateContactsW "u1",
         WriteOp.insertExperiencesW "u1"
           (buildAcademicsRows
             ⟨"Finance", ["Marketing Management"], [], ⟨false, "", "", ""⟩⟩)]
  ∧ ((handleComplete "u1"
      ⟨⟨"Mario", "Rossi"⟩,
       ⟨"Finance", ["Marketing Management"], [], ⟨false, "", "", ""⟩⟩,
       ⟨some "pic.png"⟩, ⟨"", "", "", "private"⟩⟩
      ⟨Except.ok "url", none, none, none⟩).2.map Prod.fst).all
        (fun o => ! o.isDelete) = true := by
  constructor
  · rfl
  · decide

/-- `handleComplete` always issues a prefix of the planned sequence, and
either succeeds completely or stops at the first failing write with its
message reported and all earlier writes committed. -/
theorem handleComplete_cases (uid : String) (d : OnboardingData)
    (env : OnbEnv) :
    ((handleComplete uid d env).2.map Prod.fst) <+: expectedOps uid d
  ∧ (((handleComplete uid d env).1 = none
       ∧ (handleComplete uid d env).2.map Prod.fst = expectedOps uid d
       ∧ (handleComplete uid d env).2.all (fun p => p.2) = true)
     ∨ (∃ m pre op, (handleComplete uid d env).1 = some m
         ∧ (handleComplete uid d env).2 = pre ++ [(op, false)]
         ∧ pre.all (fun p => p.2) = true
         ∧ envMsgOf env op = some m)) := by
  obtain ⟨ur, pe, ce, ie⟩ := env
  cases hf : d.photo.file with
  | some f =>
    cases ur with
    | error m =>
      have hh : handleComplete uid d ⟨Except.error m, pe, ce, ie⟩
          = (some m, [(WriteOp.uploadAvatarW uid, false)]) := by
        simp [handleComplete, uploadStep, hf]
      have hexp : expectedOps uid d
          = WriteOp.uploadAvatarW uid ::
            ([WriteOp.updateProfileW uid, WriteOp.updateContactsW uid]
              ++ (if (buildAcademicsRows d.academics).length = 0 then []
                  else [WriteOp.insertExperiencesW uid
                          (buildAcademicsRows d.academics)])) := by
        simp [expectedOps, hf]
      rw [hh, hexp]
      constructor
      · exact ⟨_, rfl⟩
      · exact Or.inr ⟨m, [], WriteOp.uploadAvatarW uid, rfl, rfl, rfl, rfl⟩
    | ok u =>
      have hh : handleComplete uid d ⟨Except.ok u, pe, ce, ie⟩
          = ((completeWrites uid d pe ce ie).1,
             (WriteOp.uploadAvatarW uid, true) :: (completeWrites uid d pe ce ie).2) := by
        simp [handleComplete, uploadStep, hf]
      have hexp : expectedOps uid d
          = WriteOp.uploadAvatarW uid ::
            ([WriteOp.updateProfileW uid, WriteOp.updateContactsW uid]
              ++ (if (buildAcademicsRows d.academics).length = 0 then []
                  else [WriteOp.insertExperiencesW uid
                          (buildAcademicsRows d.academics)])) := by
        simp [expectedOps, hf]
      rw [hh, hexp]
      rcases completeWrites_cases uid d (Except.ok u) pe ce ie with
        ⟨h1, h2, h3⟩ | ⟨m, pre, op, h1, h2, h3, h4, h5⟩
      · constructor
        · exact ⟨[], by simp [h2]⟩
        · exact Or.inl ⟨h1, by simp [h2], by simp [h3]⟩
      · constructor
        · have h6 := prefix_append_front [WriteOp.uploadAvatarW uid] _ _ h5
          simpa [h2] using h6
        · exact Or.inr ⟨m, (WriteOp.uploadAvatarW uid, true) :: pre, op, h1,
            by simp [h2], by simp [h3], h4⟩
  | none =>
    have hh : handleComplete uid d ⟨ur, pe, ce, ie⟩
        = ((completeWrites uid d pe ce ie).1,
           (completeWrites uid d pe ce ie).2) := by
      simp [handleComplete, uploadStep, hf]
    have hexp : expectedOps uid d
        = [WriteOp.updateProfileW uid, WriteOp.updateContactsW uid]
            ++ (if (buildAcademicsRows d.academics).length = 0 then []
                else [WriteOp.insertExperiencesW uid
                        (buildAcademicsRows d.academics)]) := by
      simp [expectedOps, hf]
    rw [hh, hexp]
    rcases completeWrites_cases uid d ur pe ce ie with
      ⟨h1, h2, h3⟩ | ⟨m, pre, op, h1, h2, h3, h4, h5⟩
    · constructor
      · exact ⟨[], by simp [h2]⟩
      · exact Or.inl ⟨h1, by simp [h2], h3⟩
    · constructor
      · rw [h2]
        simpa [List.map_append] using h5
      · exact Or.inr ⟨m, pre, op, h1, h2, h3, h4⟩

/-- C3 (amended): `handleComplete` performs the ordered write sequence
avatar upload (when a photo is selected), then profile update, then
contact update, then the insert of the built experience rows (with no
preceding delete), with no transactional guarantee: the issued writes are
always a prefix of that sequence, success reports no error with every
write committed, and a failure leaves the earlier writes committed,
reports the first error's message, and attempts no rollback or later
write. -/
theorem onboarding_complete_sequence (uid : String) (d : OnboardingData)
    (env : OnbEnv) :
    ((handleComplete uid d env).2.map Prod.fst) <+: expectedOps uid d
  ∧ (expectedOps uid d).all (fun o => ! o.isDelete) = true
  ∧ (((handleComplete uid d env).1 = none
       ∧ (handleComplete uid d env).2.map Prod.fst = expectedOps uid d
       ∧ (handleComplete uid d env).2.all (fun p => p.2) = true)
     ∨ (∃ m pre op, (handleComplete uid d env).1 = some m
         ∧ (handleComplete uid d env).2 = pre ++ [(op, false)]
         ∧ pre.all (fun p => p.2) = true
         ∧ envMsgOf env op = some m)) :=
  ⟨(handleComplete_cases uid d env).1, expectedOps_no_delete uid d,
   (handleComplete_cases uid d env).2⟩

/-- Deduplication only keeps elements of the input list. -/
theorem mem_dedupFirstAux (l : List String) :
    ∀ (seen : List String) (x : String), x ∈ dedupFirstAux seen l → x ∈ l := by
  induction l with
  | nil =>
    intro seen x h
    exact absurd h (List.not_mem_nil x)
  | cons y ys ih =>
    intro seen x h
    unfold dedupFirstAux at h
    by_cases hy : y ∈ seen
    · rw [if_pos hy] at h
      exact List.mem_cons_of_mem y (ih seen x h)
    · rw [if_neg hy] at h
      rcases List.mem_cons.mp h with rfl | h2
      · exact List.mem_cons_self x ys
      · exact List.mem_cons_of_mem y (ih (y :: seen) x h2)

/-- Deduplication only keeps elements of the input list. -/
theorem mem_dedupFirst (l : List String) (x : String)
    (h : x ∈ dedupFirst l) : x ∈ l :=
  mem_dedupFirstAux l [] x h

/-- Deduplication never lengthens a list. -/
theorem dedupFirstAux_length_le (l : List String) :
    ∀ seen : List String, (dedupFirstAux seen l).length ≤ l.length := by
  induction l with
  | nil => intro seen; exact Nat.le_refl 0
  | cons y ys ih =>
    intro seen
    unfold dedupFirstAux
    by_cases hy : y ∈ seen
    · rw [if_pos hy]
      exact Nat.le_succ_of_le (ih seen)
    · rw [if_neg hy]
      simpa using ih (y :: seen)

/-- Deduplication never lengthens a list. -/
theorem dedupFirst_length_le (l : List String) :
    (dedupFirst l).length ≤ l.length :=
  dedupFirstAux_length_le l []

/-- Sorted insertion permutes consing. -/
theorem insertSorted_perm (le : Profile → Profile → Bool) (p : Profile)
    (l : List Profile) : (insertSorted le p l).Perm (p :: l) := by
  induction l with
  | nil => exact List.Perm.refl _
  | cons q qs ih =>
    unfold insertSorted
    by_cases h : le p q
    · rw [if_pos h]
    · rw [if_neg h]
      exact (ih.cons q).trans (List.Perm.swap p q qs)

/-- The modelled `order(...)` clause permutes its input. -/
theorem sortProfiles_perm (le : Profile → Profile → Bool)
    (l : List Profile) : (sortProfiles le l).Perm l := by
  induction l with
  | nil => exact List.Perm.refl _
  | cons p ps ih =>
    exact (insertSorted_perm le p (sortProfiles le ps)).trans (ih.cons p)

/-- Profiles returned by the text-search query are onboarded and are not
the calling user. -/
theorem searchProfilesRows_mem (db : DB) (q uid : String) (l o : Nat)
    (p : Profile) (hp : p ∈ searchProfilesRows db q uid l o) :
    p.onboarding_completed = true ∧ p.id ≠ uid := by
  unfold searchProfilesRows at hp
  have hp2 : p ∈ db.profiles.filter (fun p =>
      p.onboarding_completed && p.id != uid &&
      (iLike p.first_name q || iLike p.last_name q ||
       iLike p.current_degree q)) :=
    (List.drop_subset _ _) ((List.take_subset _ _) hp)
  have h := List.of_mem_filter hp2
  simp only [Bool.and_eq_true, bne_iff_ne, ne_eq] at h
  exact ⟨h.1.1, h.1.2⟩

/-- Profiles returned by the browse query are onboarded and are not the
calling user. -/
theorem browseProfilesRows_mem (db : DB) (uid : String) (l o : Nat)
    (p : Profile) (hp : p ∈ browseProfilesRows db uid l o) :
    p.onboarding_completed = true ∧ p.id ≠ uid := by
  unfold browseProfilesRows at hp
  have hp2 := (List.drop_subset _ _) ((List.take_subset _ _) hp)
  have hp3 := ((sortProfiles_perm firstNameLe _).mem_iff).mp hp2
  have h := List.of_mem_filter hp3
  simp only [Bool.and_eq_true, bne_iff_ne, ne_eq] at h
  exact h

/-- Profiles returned by the id-batch query are onboarded and drawn from
the requested id list. -/
theorem fetchProfilesByIdsRows_mem (db : DB) (ids : List String)
    (p : Profile) (hp : p ∈ fetchProfilesByIdsRows db ids) :
    p.onboarding_completed = true ∧ p.id ∈ ids := by
  unfold fetchProfilesByIdsRows at hp
  by_cases h : ids.isEmpty
  · rw [if_pos h] at hp
    exact absurd hp (List.not_mem_nil p)
  · rw [if_neg h] at hp
    have h2 := List.of_mem_filter hp
    simp only [Bool.and_eq_true] at h2
    exact ⟨h2.1, List.elem_iff.mp h2.2⟩

/-- Owner ids collected by the experience search never include the calling
user. -/
theorem searchExperienceUsersRows_ne (db : DB) (q t uid : String)
    (lim : Nat) (x : String) (hx : x ∈ searchExperienceUsersRows db q t uid lim) :
    x ≠ uid := by
  simp only [searchExperienceUsersRows] at hx
  have hx2 := mem_dedupFirst _ _ hx
  obtain ⟨e, he, rfl⟩ := List.mem_map.mp hx2
  have he2 := (List.take_subset _ _) he
  have he3 : e ∈ db.experiences.filter (fun e =>
      e.exp_type == t && e.user_id != uid) := by
    by_cases hq : (jsTrim q != "") = true
    · rw [if_pos hq] at he2
      exact List.mem_of_mem_filter he2
    · rw [if_neg hq] at he2
      exact he2
  have h := List.of_mem_filter he3
  simp only [Bool.and_eq_true, bne_iff_ne, ne_eq] at h
  exact h.2

/-- The experience-owner id list is capped at the query limit. -/
theorem searchExperienceUsersRows_length_le (db : DB) (q t uid : String)
    (lim : Nat) : (searchExperienceUsersRows db q t uid lim).length ≤ lim := by
  simp only [searchExperienceUsersRows]
  refine Nat.le_trans (dedupFirst_length_le _) ?_
  rw [List.length_map]
  exact List.length_take_le lim _

/-- Wrapper-level form of `searchProfilesRows_mem` (the error branch
returns no rows). -/
theorem searchProfiles_mem (db : DB) (q uid : String) (l o : Nat)
    (err : Option String) (p : Profile)
    (hp : p ∈ searchProfiles db q uid l o err) :
    p.onboarding_completed = true ∧ p.id ≠ uid := by
  unfold searchProfiles at hp
  cases err with
  | some m => exact absurd hp (List.not_mem_nil p)
  | none => exact searchProfilesRows_mem db q uid l o p hp

/-- Wrapper-level form of `browseProfilesRows_mem`. -/
theorem browseProfiles_mem (db : DB) (uid : String) (l o : Nat)
    (err : Option String) (p : Profile)
    (hp : p ∈ browseProfiles db uid l o err) :
    p.onboarding_completed = true ∧ p.id ≠ uid := by
  unfold browseProfiles at hp
  cases err with
  | some m => exact absurd hp (List.not_mem_nil p)
  | none => exact browseProfilesRows_mem db uid l o p hp

/-- Wrapper-level form of `fetchProfilesByIdsRows_mem`. -/
theorem fetchProfilesByIds_mem (db : DB) (ids : List String)
    (err : Option String) (p : Profile)
    (hp : p ∈ fetchProfilesByIds db ids err) :
    p.onboarding_completed = true ∧ p.id ∈ ids := by
  unfold fetchProfilesByIds at hp
  by_cases h : ids.isEmpty
  · rw [if_pos h] at hp
    exact absurd hp (List.not_mem_nil p)
  · rw [if_neg h] at hp
    cases err with
    | some m => exact absurd hp (List.not_mem_nil p)
    | none => exact fetchProfilesByIdsRows_mem db ids p hp

/-- Wrapper-level form of `searchExperienceUsersRows_ne`. -/
theorem searchExperienceUsers_ne (db : DB) (q t uid : String) (lim : Nat)
    (err : Option String) (x : String)
    (hx : x ∈ searchExperienceUsers db q t uid lim err) : x ≠ uid := by
  unfold searchExperienceUsers at hx
  cases err with
  | some m => exact absurd hx (List.not_mem_nil x)
  | none => exact searchExperienceUsersRows_ne db q t uid lim x hx

/-- Wrapper-level cap on the collected owner ids. -/
theorem searchExperienceUsers_length_le (db : DB) (q t uid : String)
    (lim : Nat) (err : Option String) :
    (searchExperienceUsers db q t uid lim err).length ≤ lim := by
  unfold searchExperienceUsers
  cases err with
  | some m => exact Nat.zero_le lim
  | none => exact searchExperienceUsersRows_length_le db q t uid lim

/-- C5: for every query, every filter and every backend outcome, a fresh
search dispatch returns only profiles that are onboarding-completed and
never the current user, in both the text/browse path and the
experience-filter path. -/
theorem search_excludes_self_and_unonboarded (db : DB) (q : String)
    (f : FilterType) (uid : String) (off : Nat) (errs : CallErrs)
    (r : SearchResult)
    (hr : r ∈ (executeSearchPure db q f uid off false [] errs).1) :
    r.profile.onboarding_completed = true ∧ r.profile.id ≠ uid := by
  cases f with
  | all =>
    simp only [executeSearchPure] at hr
    rw [if_neg (by simp : ¬(false = true))] at hr
    obtain ⟨p, hp, rfl⟩ := List.mem_map.mp hr
    by_cases hq : (jsTrim q != "") = true
    · rw [if_pos hq] at hp
      exact searchProfiles_mem db q uid 50 off errs.profilesErr p hp
    · rw [if_neg hq] at hp
      exact browseProfiles_mem db uid 50 off errs.profilesErr p hp
  | degree =>
    simp only [executeSearchPure] at hr
    rw [if_neg (by simp : ¬(false = true))] at hr
    obtain ⟨p, hp, rfl⟩ := List.mem_map.mp hr
    have h := fetchProfilesByIds_mem db _ errs.byIdsErr p hp
    refine ⟨h.1, ?_⟩
    have h2 := (List.drop_subset _ _) ((List.take_subset _ _) h.2)
    exact searchExperienceUsers_ne db q _ uid 200 errs.expUsersErr p.id h2
  | course =>
    simp only [executeSearchPure] at hr
    rw [if_neg (by simp : ¬(false = true))] at hr
    obtain ⟨p, hp, rfl⟩ := List.mem_map.mp hr
    have h := fetchProfilesByIds_mem db _ errs.byIdsErr p hp
    refine ⟨h.1, ?_⟩
    have h2 := (List.drop_subset _ _) ((List.take_subset _ _) h.2)
    exact searchExperienceUsers_ne db q _ uid 200 errs.expUsersErr p.id h2
  | exchange =>
    simp only [executeSearchPure] at hr
    rw [if_neg (by simp : ¬(false = true))] at hr
    obtain ⟨p, hp, rfl⟩ := List.mem_map.mp hr
    have h := fetchProfilesByIds_mem db _ errs.byIdsErr p hp
    refine ⟨h.1, ?_⟩
    have h2 := (List.drop_subset _ _) ((List.take_subset _ _) h.2)
    exact searchExperienceUsers_ne db q _ uid 200 errs.expUsersErr p.id h2

/-- Witness for C5: a concrete onboarded stranger is returned by a browse
dispatch and satisfies both conditions. -/
theorem search_excludes_self_and_unonboarded_witness :
    (SearchResult.mk
        (Profile.mk "p1" (some "Ada") none none none none true) []
      ∈ (executeSearchPure
          (DB.mk [Profile.mk "p1" (some "Ada") none none none none true] [] [])
          "" FilterType.all "me" 0 false []
          (CallErrs.mk none none none none)).1)
  ∧ ((Profile.mk "p1" (some "Ada") none none none none true).onboarding_completed
      = true
    ∧ (Profile.mk "p1" (some "Ada") none none none none true).id ≠ "me") :=
  ⟨by decide,
   search_excludes_self_and_unonboarded
     (DB.mk [Profile.mk "p1" (some "Ada") none none none none true] [] [])
     "" FilterType.all "me" 0 (CallErrs.mk none none none none)
     (SearchResult.mk (Profile.mk "p1" (some "Ada") none none none none true) [])
     (by decide)⟩

/-- C6: for the degree/course/exchange filters, a dispatch collects the
matching experience owner ids capped at 200, slices the id list at
`[pageOffset, pageOffset + 50)` client-side, fetches profiles only for the
ids of that slice, and reports `hasMore` exactly when `pageOffset + 50` is
strictly below the number of collected ids. -/
theorem filter_search_pagination (db : DB) (q uid : String) (off : Nat)
    (errs : CallErrs) (f : FilterType) (hf : f ≠ FilterType.all) :
    (searchExperienceUsers db q f.name uid 200 errs.expUsersErr).length ≤ 200
  ∧ (executeSearchPure db q f uid off false [] errs).1.map
      (fun r => r.profile)
      = fetchProfilesByIds db
          (((searchExperienceUsers db q f.name uid 200
              errs.expUsersErr).drop off).take 50) errs.byIdsErr
  ∧ ((executeSearchPure db q f uid off false [] errs).2
      = decide (off + 50
          < (searchExperienceUsers db q f.name uid 200 errs.expUsersErr).length))
  ∧ ∀ r ∈ (executeSearchPure db q f uid off false [] errs).1,
      r.profile.id ∈ ((searchExperienceUsers db q f.name uid 200
        errs.expUsersErr).drop off).take 50 := by
  have cap := searchExperienceUsers_length_le db q f.name uid 200
    errs.expUsersErr
  cases f with
  | all => exact absurd rfl hf
  | degree =>
    refine ⟨cap, ?_, rfl, ?_⟩
    · simp only [executeSearchPure]
      rw [if_neg (by simp : ¬(false = true)), List.map_map]
      exact List.map_id'' (fun _ => rfl) _
    · intro r hr
      simp only [executeSearchPure] at hr
      rw [if_neg (by simp : ¬(false = true))] at hr
      obtain ⟨p, hp, rfl⟩ := List.mem_map.mp hr
      exact (fetchProfilesByIds_mem db _ errs.byIdsErr p hp).2
  | course =>
    refine ⟨cap, ?_, rfl, ?_⟩
    · simp only [executeSearchPure]
      rw [if_neg (by simp : ¬(false = true)), List.map_map]
      exact List.map_id'' (fun _ => rfl) _
    · intro r hr
      simp only [executeSearchPure] at hr
      rw [if_neg (by simp : ¬(false = true))] at hr
      obtain ⟨p, hp, rfl⟩ := List.mem_map.mp hr
      exact (fetchProfilesByIds_mem db _ errs.byIdsErr p hp).2
  | exchange =>
    refine ⟨cap, ?_, rfl, ?_⟩
    · simp only [executeSearchPure]
      rw [if_neg (by simp : ¬(false = true)), List.map_map]
      exact List.map_id'' (fun _ => rfl) _
    · intro r hr
      simp only [executeSearchPure] at hr
      rw [if_neg (by simp : ¬(false = true))] at hr
      obtain ⟨p, hp, rfl⟩ := List.mem_map.mp hr
      exact (fetchProfilesByIds_mem db _ errs.byIdsErr p hp).2

/-- Witness for C6: the degree filter at a concrete database observes the
cap and the hasMore rule. -/
theorem filter_search_pagination_witness :
    FilterType.degree ≠ FilterType.all
  ∧ (searchExperienceUsers (DB.mk [] [] []) "" FilterType.degree.name "me" 200
      none).length ≤ 200
  ∧ (executeSearchPure (DB.mk [] [] []) "" FilterType.degree "me" 0 false []
      (CallErrs.mk none none none none)).2
      = decide (0 + 50 < (searchExperienceUsers (DB.mk [] [] []) ""
          FilterType.degree.name "me" 200 none).length) :=
  ⟨by decide,
   (filter_search_pagination (DB.mk [] [] []) "" "me" 0
     (CallErrs.mk none none none none) FilterType.degree (by decide)).1,
   (filter_search_pagination (DB.mk [] [] []) "" "me" 0
     (CallErrs.mk none none none none) FilterType.degree (by decide)).2.2.1⟩

/-- Every entry of an appended result list is either a held entry or a new
entry whose profile id did not occur among the held ids. -/
theorem appendResults_mem (prev new : List SearchResult) (r : SearchResult)
    (hr : r ∈ appendResults prev new) :
    r ∈ prev ∨ (r ∈ new
      ∧ r.profile.id ∉ prev.map (fun x => x.profile.id)) := by
  unfold appendResults at hr
  rcases List.mem_append.mp hr with h | h
  · exact Or.inl h
  · right
    refine ⟨List.mem_of_mem_filter h, ?_⟩
    have h2 := List.of_mem_filter h
    simp only [Bool.not_eq_true'] at h2
    intro hmem
    have h4 : (prev.map (fun x => x.profile.id)).contains r.profile.id = true :=
      List.elem_iff.mpr hmem
    rw [h4] at h2
    exact Bool.noConfusion h2

/-- Appending a deduplicated page preserves distinctness of profile ids. -/
theorem appendResults_nodup (prev new : List SearchResult)
    (h1 : (prev.map (fun r => r.profile.id)).Nodup)
    (h2 : (new.map (fun r => r.profile.id)).Nodup) :
    ((appendResults prev new).map (fun r => r.profile.id)).Nodup := by
  unfold appendResults
  rw [List.map_append]
  refine List.Nodup.append h1 ?_ ?_
  · exact List.Nodup.sublist
      (List.Sublist.map _ (List.filter_sublist new)) h2
  · intro a ha hb
    obtain ⟨r, hr, rfl⟩ := List.mem_map.mp hb
    have h3 := List.of_mem_filter hr
    simp only [Bool.not_eq_true'] at h3
    have h4 : (prev.map (fun x => x.profile.id)).contains r.profile.id = true :=
      List.elem_iff.mpr ha
    rw [h4] at h3
    exact Bool.noConfusion h3

/-- A page produced by the text-search wrapper has distinct profile ids
whenever the profiles table does. -/
theorem searchProfiles_page_nodup (db : DB) (q uid : String) (l o : Nat)
    (err : Option String) (h : (db.profiles.map (fun p => p.id)).Nodup) :
    ((searchProfiles db q uid l o err).map (fun p => p.id)).Nodup := by
  unfold searchProfiles
  cases err with
  | some m => exact List.nodup_nil
  | none =>
    unfold searchProfilesRows
    refine List.Nodup.sublist (List.Sublist.map _ ?_) h
    exact ((List.take_sublist _ _).trans (List.drop_sublist _ _)).trans
      (List.filter_sublist _)

/-- A page produced by the browse wrapper has distinct profile ids
whenever the profiles table does. -/
theorem browseProfiles_page_nodup (db : DB) (uid : String) (l o : Nat)
    (err : Option String) (h : (db.profiles.map (fun p => p.id)).Nodup) :
    ((browseProfiles db uid l o err).map (fun p => p.id)).Nodup := by
  unfold browseProfiles
  cases err with
  | some m => exact List.nodup_nil
  | none =>
    unfold browseProfilesRows
    have hsorted : ((sortProfiles firstNameLe
        (db.profiles.filter (fun p =>
          p.onboarding_completed && p.id != uid))).map
            (fun p => p.id)).Nodup := by
      rw [((sortProfiles_perm firstNameLe _).map (fun p => p.id)).nodup_iff]
      exact List.Nodup.sublist
        (List.Sublist.map _ (List.filter_sublist _)) h
    refine List.Nodup.sublist (List.Sublist.map _ ?_) hsorted
    exact (List.take_sublist _ _).trans (List.drop_sublist _ _)

/-- A page produced by the id-batch wrapper has distinct profile ids
whenever the profiles table does. -/
theorem fetchProfilesByIds_page_nodup (db : DB) (ids : List String)
    (err : Option String) (h : (db.profiles.map (fun p => p.id)).Nodup) :
    ((fetchProfilesByIds db ids err).map (fun p => p.id)).Nodup := by
  unfold fetchProfilesByIds
  by_cases hids : ids.isEmpty
  · rw [if_pos hids]
    exact List.nodup_nil
  · rw [if_neg hids]
    cases err with
    | some m => exact List.nodup_nil
    | none =>
      unfold fetchProfilesByIdsRows
      rw [if_neg hids]
      exact List.Nodup.sublist
        (List.Sublist.map _ (List.filter_sublist _)) h

/-- C4: appending a further page never produces duplicate profile ids —
new entries whose profile id already occurs in the held list are filtered
out before appending, and whenever the held list and the fetched page each
have pairwise-distinct ids (pages are slices of the profiles table, whose
ids the backend keeps unique) the appended result list's profile ids stay
pairwise distinct, for every filter and both query paths. -/
theorem search_append_nodup :
    (∀ (prev new : List SearchResult) (r : SearchResult),
        r ∈ appendResults prev new →
        r ∈ prev ∨ (r ∈ new
          ∧ r.profile.id ∉ prev.map (fun x => x.profile.id)))
  ∧ (∀ prev new : List SearchResult,
        (prev.map (fun r => r.profile.id)).Nodup →
        (new.map (fun r => r.profile.id)).Nodup →
        ((appendResults prev new).map (fun r => r.profile.id)).Nodup)
  ∧ (∀ (db : DB) (q : String) (f : FilterType) (uid : String) (off : Nat)
        (errs : CallErrs) (prev : List SearchResult),
        (db.profiles.map (fun p => p.id)).Nodup →
        (prev.map (fun r => r.profile.id)).Nodup →
        (((executeSearchPure db q f uid off true prev errs).1).map
          (fun r => r.profile.id)).Nodup) := by
  refine ⟨appendResults_mem, appendResults_nodup, ?_⟩
  intro db q f uid off errs prev hdb hprev
  cases f with
  | all =>
    simp only [executeSearchPure]
    rw [if_pos trivial]
    apply appendResults_nodup _ _ hprev
    rw [List.map_map]
    show ((if jsTrim q != "" then
      searchProfiles db q uid 50 off errs.profilesErr
      else browseProfiles db uid 50 off errs.profilesErr).map
        (fun p => p.id)).Nodup
    by_cases hq : (jsTrim q != "") = true
    · rw [if_pos hq]
      exact searchProfiles_page_nodup db q uid 50 off errs.profilesErr hdb
    · rw [if_neg hq]
      exact browseProfiles_page_nodup db uid 50 off errs.profilesErr hdb
  | degree =>
    simp only [executeSearchPure]
    rw [if_pos trivial]
    apply appendResults_nodup _ _ hprev
    rw [List.map_map]
    exact fetchProfilesByIds_page_nodup db _ errs.byIdsErr hdb
  | course =>
    simp only [executeSearchPure]
    rw [if_pos trivial]
    apply appendResults_nodup _ _ hprev
    rw [List.map_map]
    exact fetchProfilesByIds_page_nodup db _ errs.byIdsErr hdb
  | exchange =>
    simp only [executeSearchPure]
    rw [if_pos trivial]
    apply appendResults_nodup _ _ hprev
    rw [List.map_map]
    exact fetchProfilesByIds_page_nodup db _ errs.byIdsErr hdb

/-- Witness for C4: appending a concrete overlapping page keeps the
profile ids distinct. -/
theorem search_append_nodup_witness :
    (([SearchResult.mk (Profile.mk "a" none none none none none true) []].map
        (fun r => r.profile.id)).Nodup
      ∧ ([SearchResult.mk (Profile.mk "a" none none none none none true) [],
          SearchResult.mk (Profile.mk "b" none none none none none true) []].map
          (fun r => r.profile.id)).Nodup)
  ∧ ((appendResults
        [SearchResult.mk (Profile.mk "a" none none none none none true) []]
        [SearchResult.mk (Profile.mk "a" none none none none none true) [],
         SearchResult.mk (Profile.mk "b" none none none none none true) []]).map
        (fun r => r.profile.id)).Nodup :=
  ⟨⟨by decide, by decide⟩,
   search_append_nodup.2.1
     [SearchResult.mk (Profile.mk "a" none none none none none true) []]
     [SearchResult.mk (Profile.mk "a" none none none none none true) [],
      SearchResult.mk (Profile.mk "b" none none none none none true) []]
     (by decide) (by decide)⟩

end BContact
